import Mathlib

set_option linter.unusedVariables false

/-!
Formal model of the drone-ssh plugin (`plugin.go`).

The model is a shallow embedding of the Go source:

* error message constants mirror the `const` block;
* `validate` mirrors the three `if` checks at the top of `Plugin.Exec`;
* `retryStreamGo` mirrors the loop of `retryStream`, with time in whole
  seconds (`wait` starts at `time.Second`), connect attempts supplied as an
  oracle list (the behaviour of the external `easyssh` session), and the
  `select` between the overall retry deadline and the backoff timer resolved
  in favour of the deadline when both fire at the same instant (in Go a tie
  between two ready channels is resolved pseudo-randomly);
* `muxLoop` mirrors the `select` loop of `Plugin.exec`, with the arrival
  order of signals on the four channels linearised into one event list;
* `execUnit` gives the list of errors one `Plugin.exec` call sends on the
  shared capacity-one error channel, in order (`nil` connect error branch,
  then the recorded command error, then the command-timeout error);
* `runSyncHosts` and `ExecSync` mirror `Plugin.Exec` for configurations
  with `Sync = true`: hosts are processed strictly in list order on the
  calling thread; a send on the full capacity-one channel with no reader
  blocks forever (modelled as `none`); the final
  `select \x7b case <-finished: case err := <-errChannel \x7d` is resolved by the
  scheduler parameter `pickFinished`, since once every unit has called
  `wg.Done()` both branches can be ready and Go picks between ready
  branches pseudo-randomly.

Fields of `Config` that are only passed through to the external session
(port, timeouts, proxy, script text, debug flag) are omitted; the retry
deadline appears as the `deadline` argument of the retry model and the
environment/escaping logic is modelled separately (`escapeArg`).
-/

/-- A single quote character as a string (used to spell the Go message
constants that contain one). -/
def squote : String := String.mk ['\'']

/-- Mirrors the Go constant `missingHostOrUser`. -/
def missingHostOrUser : String := "Error: missing server host or user"

/-- Mirrors the Go constant `missingPasswordOrKey`. -/
def missingPasswordOrKey : String :=
  "Error: can" ++ squote ++ "t connect without a private SSH key or password"

/-- Mirrors the Go constant `commandTimeOut`. -/
def commandTimeOut : String := "Error: command timeout"

/-- Mirrors the Go constant `setPasswordandKey`. -/
def setPasswordandKey : String :=
  "can" ++ squote ++ "t set password and key at the same time"

/-- The fields of the Go `Config` struct that the modelled control flow
reads.  `Host` is the ordered host list; `Sync` is the sequential-execution
flag. -/
structure Config where
  Key : String
  KeyPath : String
  UserName : String
  Password : String
  Host : List String
  Sync : Bool
deriving DecidableEq

/-- The three validation checks at the top of `Plugin.Exec`, in source
order, returning the first failing check's error message:

* `len(p.Config.Host) == 0 && len(p.Config.UserName) == 0`,
* `len(p.Config.Key) == 0 && len(p.Config.Password) == 0 && len(p.Config.KeyPath) == 0`,
* `len(p.Config.Key) != 0 && len(p.Config.Password) != 0`. -/
def validate (c : Config) : Option String :=
  if c.Host.length = 0 ∧ c.UserName.length = 0 then some missingHostOrUser
  else if c.Key.length = 0 ∧ c.Password.length = 0 ∧ c.KeyPath.length = 0 then
    some missingPasswordOrKey
  else if c.Key.length ≠ 0 ∧ c.Password.length ≠ 0 then some setPasswordandKey
  else none

/-- One signal received by the `select` loop of `Plugin.exec`, on one of the
four channels returned by a successful connect.  `errCh` carries the value
received on the `error` channel, which in Go may be `nil` (`none`). -/
inductive Event where
  | out : String → Event
  | errLine : String → Event
  | errCh : Option String → Event
  | done : Bool → Event
deriving DecidableEq

/-- The `select` loop of `Plugin.exec` over the linearised arrival order of
signals.  The accumulator is the local `err` variable (overwritten by every
receive on the error channel, `nil` included); the loop exits only when a
value arrives on `doneChan`, returning that value (the `isTimeout` flag,
`true` meaning the command finished before its timeout) together with the
final `err`.  An event list with no `done` models a loop that never exits
(`none`). -/
def muxLoop : Option String → List Event → Option (Bool × Option String)
  | _, [] => none
  | err, Event.done t :: _ => some (t, err)
  | err, Event.out _ :: es => muxLoop err es
  | err, Event.errLine _ :: es => muxLoop err es
  | _, Event.errCh e :: es => muxLoop e es

/-- Outcome of `retryStream` for one host, as seen by `Plugin.exec`: either
the connect failed with an error, or it succeeded and the given events
subsequently arrive on the four channels. -/
inductive ConnectResult where
  | failed : String → ConnectResult
  | ok : List Event → ConnectResult
deriving DecidableEq

/-- The list of errors one `Plugin.exec` call sends on the shared error
channel, in order.  A failed connect sends exactly that error.  After a
successful connect the loop runs; if it exits, the recorded `err` is sent
when non-nil, and then the fixed command-timeout error is sent when the
completion signal carried `false`.  `none` models a unit whose loop never
exits (it then never reaches `wg.Done()`). -/
def execUnit : ConnectResult → Option (List String)
  | ConnectResult.failed e => some [e]
  | ConnectResult.ok events =>
    match muxLoop none events with
    | none => none
    | some (isTimeout, err) =>
      some (err.toList ++ if isTimeout then [] else [commandTimeOut])

/-- Sends a list of errors, in order, into the capacity-one error channel
(whose buffered content is `slot`) while no reader is active.  A send on a
full buffer blocks forever (`none`); otherwise the new buffer content is
returned. -/
def sendAll : Option String → List String → Option (Option String)
  | slot, [] => some slot
  | none, e :: es => sendAll (some e) es
  | some _, _ :: _ => none

/-- The host loop of `Plugin.Exec` with `Sync = true`: each host's unit runs
to completion on the calling thread before the next host is considered.
Returns the list of hosts whose unit was started (in order) and `none` when
the run blocks forever (a unit whose loop never exits, or a send on the full
error channel), else the final buffer content of the error channel. -/
def runSyncHosts (behav : String → ConnectResult) :
    List String → Option String → List String × Option (Option String)
  | [], slot => ([], some slot)
  | h :: hs, slot =>
    match execUnit (behav h) with
    | none => ([h], none)
    | some sends =>
      match sendAll slot sends with
      | none => ([h], none)
      | some slot2 =>
        match runSyncHosts behav hs slot2 with
        | (started, r) => (h :: started, r)

/-- Result of one `Plugin.Exec` run: either it blocks forever, or it returns
the given error value after printing (`true`) or not printing the success
banner. -/
inductive ExecResult where
  | hang : ExecResult
  | ret : Option String → Bool → ExecResult
deriving DecidableEq

/-- Model of `Plugin.Exec` for configurations with `Sync = true`, paired
with the list of hosts whose execution unit was started.  After validation
the hosts run sequentially; the final `select` between the `finished`
channel and the error channel is resolved by `pickFinished` when an error is
buffered (both branches can be ready once every unit has called `wg.Done()`,
and Go chooses between ready `select` branches pseudo-randomly): `true`
takes the `finished` branch, so `Exec` falls through to the success banner
and returns `nil` even though an error was buffered. -/
def ExecSync (c : Config) (behav : String → ConnectResult) (pickFinished : Bool) :
    ExecResult × List String :=
  match validate c with
  | some e => (ExecResult.ret (some e) false, [])
  | none =>
    match runSyncHosts behav c.Host none with
    | (started, none) => (ExecResult.hang, started)
    | (started, some none) => (ExecResult.ret none true, started)
    | (started, some (some e)) =>
      if pickFinished then (ExecResult.ret none true, started)
      else (ExecResult.ret (some e) false, started)

/-- The concatenated error sends of the units for the given hosts, in host
order; `none` when some unit's loop never exits. -/
def unitsSends (behav : String → ConnectResult) : List String → Option (List String)
  | [] => some []
  | h :: hs =>
    match execUnit (behav h) with
    | none => none
    | some s => (unitsSends behav hs).map (fun rest => s ++ rest)

/-- One connect attempt outcome of `ssh.Stream`, as classified by
`retryStream`: success (`err == nil`), a transient failure (`err` is a
`*net.OpError`, carrying its message), or a non-transient failure (any other
non-nil `err`). -/
inductive Attempt where
  | ok : Attempt
  | transient : String → Attempt
  | fatal : String → Attempt
deriving DecidableEq

/-- The loop of `retryStream`, over the oracle list of connect attempt
outcomes.  `wait` is the current backoff in seconds (starts at 1, doubled
after every performed wait); `elapsed` is the total time waited so far (a
connect attempt itself is modelled as instantaneous).  The overall deadline
timer fires at absolute time `deadline`; on a transient failure the `select`
between it and the backoff timer returns the current error when the
deadline fires no later than the backoff timer
(`deadline ≤ elapsed + wait`).  The result is the returned error (`none`
meaning the channels were returned), the number of connect attempts made
and the list of backoff waits performed; `none` means the oracle list was
exhausted. -/
def retryStreamGo (deadline : Nat) :
    List Attempt → Nat → Nat → Option (Option String × Nat × List Nat)
  | [], _, _ => none
  | Attempt.ok :: _, _, _ => some (none, 1, [])
  | Attempt.fatal e :: _, _, _ => some (some e, 1, [])
  | Attempt.transient e :: rest, wait, elapsed =>
    if deadline ≤ elapsed + wait then some (some e, 1, [])
    else
      match retryStreamGo deadline rest (wait * 2) (elapsed + wait) with
      | none => none
      | some (r, n, ws) => some (r, n + 1, wait :: ws)

/-- `retryStream` itself: the loop entered with `wait = time.Second` and no
time elapsed. -/
def retryStream (deadline : Nat) (attempts : List Attempt) :
    Option (Option String × Nat × List Nat) :=
  retryStreamGo deadline attempts 1 0

/-- The replacement core of `escapeArg`: Go's
`strings.Replace(arg, quote, quote-backslash-quote-quote, -1)` replaces every
single quote by the four characters quote, backslash, quote, quote; for the
one-character pattern this is exactly a character-wise expansion. -/
def escCore : List Char → List Char
  | [] => []
  | c :: cs =>
    if c = '\'' then '\'' :: '\\' :: '\'' :: '\'' :: escCore cs
    else c :: escCore cs

/-- Mirrors `escapeArg`: wrap the replaced text in single quotes. -/
def escapeArg (s : String) : String :=
  String.mk ('\'' :: (escCore s.data ++ ['\'']))

/-- Characters that a POSIX shell does not treat as literal outside quotes
(word-breaking whitespace, quoting and expansion characters, operators).
Character 96 is the backquote. -/
def shellSpecial (c : Char) : Bool :=
  c = ' ' || c = '\t' || c = '\n' || c = '"' || c = '$' || c = Char.ofNat 96 ||
  c = '|' || c = '&' || c = ';' || c = '(' || c = ')' || c = '<' || c = '>' ||
  c = '*' || c = '?' || c = '#' || c = '~'

/-- Parser state for one POSIX shell word: outside any quoting, inside a
single-quoted section, or right after an unquoted backslash. -/
inductive ParseState where
  | outside : ParseState
  | inside : ParseState
  | escaped : ParseState
deriving DecidableEq

/-- Parser for one POSIX shell word: returns the literal token the shell
would read from the whole input, or `none` when the input is not one plain
literal token (unterminated quote, trailing backslash, or an unquoted
special character).  Inside a single-quoted section every character up to
the closing quote is literal; outside, a backslash makes the next character
literal and a single quote opens a quoted section. -/
def shellTok : ParseState → List Char → Option (List Char)
  | ParseState.outside, [] => some []
  | ParseState.inside, [] => none
  | ParseState.escaped, [] => none
  | ParseState.outside, c :: cs =>
    if c = '\'' then shellTok ParseState.inside cs
    else if c = '\\' then shellTok ParseState.escaped cs
    else if shellSpecial c then none
    else (shellTok ParseState.outside cs).map (fun r => c :: r)
  | ParseState.inside, c :: cs =>
    if c = '\'' then shellTok ParseState.outside cs
    else (shellTok ParseState.inside cs).map (fun r => c :: r)
  | ParseState.escaped, c :: cs =>
    (shellTok ParseState.outside cs).map (fun r => c :: r)

/-- Mirrors `fmt.Sprintln(message...)`: the arguments joined by single
spaces, with a trailing newline. -/
def sprintln (message : List String) : String :=
  String.intercalate " " message ++ "\n"

/-- Mirrors `Plugin.log`: the line written to the sink is unprefixed exactly
when the configured host list has length one, else prefixed by the
originating host, a colon and a space. -/
def logLine (hosts : List String) (host : String) (message : List String) : String :=
  if hosts.length = 1 then sprintln message
  else host ++ ": " ++ sprintln message

/-- The value carried by the first completion signal in the event list, when
one arrives. -/
def doneSignal : List Event → Option Bool
  | [] => none
  | Event.done t :: _ => some t
  | Event.out _ :: es => doneSignal es
  | Event.errLine _ :: es => doneSignal es
  | Event.errCh _ :: es => doneSignal es

/-- The recorded error at loop exit, per the specification's description:
the last value received on the error channel before the first completion
signal (starting from `acc`). -/
def recordedError : Option String → List Event → Option String
  | acc, [] => acc
  | acc, Event.done _ :: _ => acc
  | acc, Event.out _ :: es => recordedError acc es
  | acc, Event.errLine _ :: es => recordedError acc es
  | _, Event.errCh e :: es => recordedError e es

/-- The per-host outcome as observed by the coordinator: the first error the
unit sends on the error channel (`some none` = unit completed and sent
nothing, i.e. success; `some (some e)` = the first sent error is `e`;
`none` = the loop never exits). -/
def hostOutcome (events : List Event) : Option (Option String) :=
  (execUnit (ConnectResult.ok events)).map (fun sends => sends.head?)

/-- Claim C5: a connect attempt that fails with an error not classified as a
network-operation error makes `retryStream` return that error immediately:
from any loop state, exactly that one attempt is made (attempt count 1, the
remaining oracle is never consulted) and no backoff wait is performed. -/
theorem fatal_fails_fast (deadline w el : Nat) (e : String) (rest : List Attempt) :
    retryStreamGo deadline (Attempt.fatal e :: rest) w el = some (some e, 1, []) := rfl

/-- Claim C6: if the overall retry deadline fires no later than the backoff
timer after a transient failure, `retryStream` returns the most recent
transient error with no further connect attempt and no further wait,
whatever attempts the oracle still holds. -/
theorem retry_deadline_stops (deadline w el : Nat) (e : String) (rest : List Attempt)
    (h : deadline ≤ el + w) :
    retryStreamGo deadline (Attempt.transient e :: rest) w el = some (some e, 1, []) := by
  simp [retryStreamGo, h]

/-- Witness for `retry_deadline_stops` at a concrete input. -/
theorem retry_deadline_stops_witness :
    retryStreamGo 1 [Attempt.transient "refused", Attempt.ok] 1 0
      = some (some "refused", 1, []) :=
  retry_deadline_stops 1 1 0 "refused" [Attempt.ok] (by decide)

/-- Claim C9: a log call writes the message line unprefixed when the
configured host list has exactly one entry, and prefixed with the
originating host, a colon and a space when it has more than one entry. -/
theorem log_prefixing (hosts : List String) (host : String) (message : List String) :
    (hosts.length = 1 → logLine hosts host message = sprintln message) ∧
    (1 < hosts.length → logLine hosts host message = host ++ ": " ++ sprintln message) := by
  constructor
  · intro h
    simp [logLine, h]
  · intro h
    have hne : hosts.length ≠ 1 := by omega
    simp [logLine, hne]

/-- Witness for `log_prefixing` at concrete inputs. -/
theorem log_prefixing_witness :
    logLine ["h1"] "h1" ["out:", "hello"] = sprintln ["out:", "hello"] ∧
    logLine ["h1", "h2"] "h2" ["ok"] = "h2" ++ ": " ++ sprintln ["ok"] :=
  ⟨(log_prefixing ["h1"] "h1" ["out:", "hello"]).1 (by decide),
   (log_prefixing ["h1", "h2"] "h2" ["ok"]).2 (by decide)⟩

/-- Counterexample to claim C1: a request with an empty host list but a
non-empty username (and no credentials) does not get `missingHostOrUser`;
the guard in `Plugin.Exec` requires host list AND username to be empty, so
this request falls through to the credential check and `Exec` returns
`missingPasswordOrKey`. -/
theorem missing_host_user_cex :
    ExecSync { Key := "", KeyPath := "", UserName := "user", Password := "",
               Host := [], Sync := true }
      (fun _ => ConnectResult.failed "E") false
      = (ExecResult.ret (some missingPasswordOrKey) false, []) ∧
    missingPasswordOrKey ≠ missingHostOrUser := by
  decide

/-- Claim C1 (amended): for every request whose host list is empty AND whose
username is empty, `Exec` returns `missingHostOrUser`, before any connection
attempt (no unit is started, the session behaviour is irrelevant) and before
the other validations (the credential fields are irrelevant). -/
theorem missing_host_user_first (c : Config) (behav : String → ConnectResult)
    (pf : Bool) (h1 : c.Host = []) (h2 : c.UserName = "") :
    ExecSync c behav pf = (ExecResult.ret (some missingHostOrUser) false, []) := by
  have hv : validate c = some missingHostOrUser := by
    simp [validate, h1, h2]
  simp [ExecSync, hv]

/-- Witness for `missing_host_user_first`: both key and password set, so the
other checks would fire if reached, yet the result is `missingHostOrUser`. -/
theorem missing_host_user_first_witness :
    ExecSync { Key := "k", KeyPath := "", UserName := "", Password := "p",
               Host := [], Sync := true }
      (fun _ => ConnectResult.failed "E") true
      = (ExecResult.ret (some missingHostOrUser) false, []) :=
  missing_host_user_first
    { Key := "k", KeyPath := "", UserName := "", Password := "p",
      Host := [], Sync := true }
    (fun _ => ConnectResult.failed "E") true (by decide) (by decide)

/-- Claim C10: the three validations of `Plugin.Exec` are applied in source
order (host/user check, then credential-presence check, then
key/password-conflict check) and the first failing check's error is the one
returned; in particular a request with both key and password set but an
empty host list and an empty username gets `missingHostOrUser`, not the
conflicting-credentials error. -/
theorem validation_order (c : Config) :
    (c.Host.length = 0 ∧ c.UserName.length = 0 →
      validate c = some missingHostOrUser) ∧
    (¬(c.Host.length = 0 ∧ c.UserName.length = 0) →
      c.Key.length = 0 ∧ c.Password.length = 0 ∧ c.KeyPath.length = 0 →
      validate c = some missingPasswordOrKey) ∧
    (¬(c.Host.length = 0 ∧ c.UserName.length = 0) →
      ¬(c.Key.length = 0 ∧ c.Password.length = 0 ∧ c.KeyPath.length = 0) →
      c.Key.length ≠ 0 ∧ c.Password.length ≠ 0 →
      validate c = some setPasswordandKey) ∧
    (validate { Key := "k", KeyPath := "", UserName := "", Password := "p",
                Host := [], Sync := true } = some missingHostOrUser ∧
     missingHostOrUser ≠ setPasswordandKey) := by
  refine ⟨?_, ?_, ?_, by decide⟩
  · intro h
    simp [validate, h]
  · intro h1 h2
    unfold validate
    rw [if_neg h1, if_pos h2]
  · intro h1 h2 h3
    unfold validate
    rw [if_neg h1, if_neg h2, if_pos h3]

/-- Witness for `validation_order` at concrete inputs exercising the second
and third checks. -/
theorem validation_order_witness :
    validate { Key := "", KeyPath := "", UserName := "u", Password := "",
               Host := ["h"], Sync := true } = some missingPasswordOrKey ∧
    validate { Key := "k", KeyPath := "", UserName := "u", Password := "p",
               Host := ["h"], Sync := true } = some setPasswordandKey := by
  constructor
  · exact (validation_order _).2.1 (by decide) (by decide)
  · exact (validation_order _).2.2.1 (by decide) (by decide) (by decide)

/-- Claim C3 (code bug, evaluated at the failing input): with one host whose
unit reports the error "E", there is a schedule of the final select (the
finished branch picked once every unit has called its wait-group done) under
which `Exec` returns `nil` and prints the success banner, although the unit
reported an error; picking the error branch instead returns the error. -/
theorem lost_error_on_finished_race :
    ExecSync { Key := "k", KeyPath := "", UserName := "u", Password := "",
               Host := ["h"], Sync := true }
      (fun _ => ConnectResult.failed "E") true
      = (ExecResult.ret none true, ["h"]) ∧
    execUnit (ConnectResult.failed "E") = some ["E"] ∧
    ExecSync { Key := "k", KeyPath := "", UserName := "u", Password := "",
               Host := ["h"], Sync := true }
      (fun _ => ConnectResult.failed "E") false
      = (ExecResult.ret (some "E") false, ["h"]) := by
  decide

/-- Counterexample to claim C2: sync flag set, two hosts, the unit for the
first host fails with "boom" — yet a unit is still started for the second
host (the started-host list is the full host list, with "h2" in it), because
the sync loop of `Plugin.Exec` only parks the error in the buffered channel
and goes on to the next host. -/
theorem sync_continues_after_failure_cex :
    (ExecSync { Key := "k", KeyPath := "", UserName := "u", Password := "",
                Host := ["h1", "h2"], Sync := true }
       (fun h => if h = "h1" then ConnectResult.failed "boom"
                 else ConnectResult.ok [Event.done true]) false
       = (ExecResult.ret (some "boom") false, ["h1", "h2"])) ∧
    "h2" ∈ (ExecSync
       { Key := "k", KeyPath := "", UserName := "u", Password := "",
         Host := ["h1", "h2"], Sync := true }
       (fun h => if h = "h1" then ConnectResult.failed "boom"
                 else ConnectResult.ok [Event.done true]) false).2 := by
  decide

/-- Units that send no error leave the channel buffer unchanged and the sync
loop runs through all of their hosts. -/
theorem runSyncHosts_no_sends (behav : String → ConnectResult) :
    ∀ (hosts : List String) (slot : Option String),
      unitsSends behav hosts = some [] →
      runSyncHosts behav hosts slot = (hosts, some slot) := by
  intro hosts
  induction hosts with
  | nil => intro slot h; rfl
  | cons h hs ih =>
    intro slot hu
    unfold unitsSends at hu
    cases he : execUnit (behav h) with
    | none => rw [he] at hu; exact absurd hu (by simp)
    | some s =>
      rw [he] at hu
      cases hr : unitsSends behav hs with
      | none => rw [hr] at hu; exact absurd hu (by simp)
      | some l =>
        rw [hr] at hu
        simp only [Option.map_some] at hu
        have hnil : s = [] ∧ l = [] := by
          have := Option.some.inj hu
          exact List.append_eq_nil.mp this
        obtain ⟨hs1, hl1⟩ := hnil
        subst hs1
        unfold runSyncHosts
        rw [he]
        simp only [sendAll]
        rw [ih slot (by rw [hl1] at hr; exact hr)]

/-- When the units for the given hosts send exactly one error in total, the
sync loop starts a unit for every host, in list order, and leaves that error
buffered. -/
theorem runSyncHosts_single_err (behav : String → ConnectResult) (e : String) :
    ∀ hosts : List String,
      unitsSends behav hosts = some [e] →
      runSyncHosts behav hosts none = (hosts, some (some e)) := by
  intro hosts
  induction hosts with
  | nil => intro h; exact absurd h (by simp [unitsSends])
  | cons h hs ih =>
    intro hu
    unfold unitsSends at hu
    cases he : execUnit (behav h) with
    | none => rw [he] at hu; exact absurd hu (by simp)
    | some s =>
      rw [he] at hu
      cases hr : unitsSends behav hs with
      | none => rw [hr] at hu; exact absurd hu (by simp)
      | some l =>
        rw [hr] at hu
        simp only [Option.map_some] at hu
        have happ : s ++ l = [e] := Option.some.inj hu
        unfold runSyncHosts
        rw [he]
        cases s with
        | nil =>
          simp only [List.nil_append] at happ
          subst happ
          simp only [sendAll]
          rw [ih hr]
        | cons a s2 =>
          obtain ⟨ha1, hs2, hl2⟩ : a = e ∧ s2 = [] ∧ l = [] := by
            simpa using happ
          subst ha1; subst hs2
          simp only [sendAll]
          rw [runSyncHosts_no_sends behav hs (some a) (by rw [hl2] at hr; exact hr)]

/-- Claim C2 (amended): with the sync flag set, the per-host units run
strictly one after another in host-list order, but a failing unit does not
stop the loop — a unit is started for every host in the list; when exactly
one error is sent in total and the final select takes the error branch,
`Exec` returns that (first) failing unit's error. -/
theorem sync_runs_all_hosts (c : Config) (behav : String → ConnectResult) (e : String)
    (hsync : c.Sync = true) (hv : validate c = none)
    (hu : unitsSends behav c.Host = some [e]) :
    ExecSync c behav false = (ExecResult.ret (some e) false, c.Host) := by
  unfold ExecSync
  rw [hv, runSyncHosts_single_err behav e c.Host hu]
  rfl

/-- Witness for `sync_runs_all_hosts` at a concrete input: first host fails,
second succeeds, both are run, the first error is returned. -/
theorem sync_runs_all_hosts_witness :
    ExecSync { Key := "k", KeyPath := "", UserName := "u", Password := "",
               Host := ["h1", "h2"], Sync := true }
      (fun h => if h = "h1" then ConnectResult.failed "boom"
                else ConnectResult.ok [Event.done true]) false
      = (ExecResult.ret (some "boom") false, ["h1", "h2"]) := by
  have h := sync_runs_all_hosts
    { Key := "k", KeyPath := "", UserName := "u", Password := "",
      Host := ["h1", "h2"], Sync := true }
    (fun h => if h = "h1" then ConnectResult.failed "boom"
              else ConnectResult.ok [Event.done true])
    "boom" (by decide) (by decide) (by decide)
  exact h

/-- When a completion signal occurs in the event list, the select loop exits
at the first one, returning its flag together with the last value received
on the error channel before it. -/
theorem muxLoop_done (events : List Event) :
    ∀ (acc : Option String) (t : Bool), doneSignal events = some t →
      muxLoop acc events = some (t, recordedError acc events) := by
  induction events with
  | nil => intro acc t h; exact absurd h (by simp [doneSignal])
  | cons ev es ih =>
    intro acc t h
    cases ev with
    | done b =>
      simp [doneSignal] at h
      subst h
      rfl
    | out s =>
      simp only [doneSignal] at h
      simpa only [muxLoop, recordedError] using ih acc t h
    | errLine s =>
      simp only [doneSignal] at h
      simpa only [muxLoop, recordedError] using ih acc t h
    | errCh e =>
      simp only [doneSignal] at h
      simpa only [muxLoop, recordedError] using ih e t h

/-- Claim C7: the select loop ignores output and error-line signals, records
(and keeps recording) values from the error channel without exiting, exits
exactly when a completion signal arrives, and never exits otherwise; after
the loop, the per-host outcome is the recorded error when one is present,
else the fixed command-timeout error when the completion flag said timeout,
else success — so a recorded error takes precedence over a timeout. -/
theorem mux_loop_outcome :
    (∀ (acc : Option String) (s : String) (es : List Event),
      muxLoop acc (Event.out s :: es) = muxLoop acc es) ∧
    (∀ (acc : Option String) (s : String) (es : List Event),
      muxLoop acc (Event.errLine s :: es) = muxLoop acc es) ∧
    (∀ (acc e : Option String) (es : List Event),
      muxLoop acc (Event.errCh e :: es) = muxLoop e es) ∧
    (∀ (acc : Option String) (t : Bool) (es : List Event),
      muxLoop acc (Event.done t :: es) = some (t, acc)) ∧
    (∀ acc : Option String, muxLoop acc [] = none) ∧
    (∀ (events : List Event) (t : Bool), doneSignal events = some t →
      hostOutcome events
        = some (match recordedError none events with
                | some e => some e
                | none => if t then none else some commandTimeOut)) := by
  refine ⟨fun _ _ _ => rfl, fun _ _ _ => rfl, fun _ _ _ => rfl,
    fun _ _ _ => rfl, fun _ => rfl, ?_⟩
  intro events t h
  have hm := muxLoop_done events none t h
  simp only [hostOutcome, execUnit]
  rw [hm]
  cases hrec : recordedError none events with
  | none => cases t <;> simp
  | some e => simp

/-- Witness for `mux_loop_outcome`: an error and a timeout completion signal
are both observed; the recorded error takes precedence over the timeout. -/
theorem mux_loop_outcome_witness :
    hostOutcome [Event.out "line", Event.errCh (some "exit status 1"),
                 Event.done false]
      = some (some "exit status 1") := by
  have h := mux_loop_outcome.2.2.2.2.2
    [Event.out "line", Event.errCh (some "exit status 1"), Event.done false]
    false (by decide)
  simpa using h

/-- Single step of the word parser outside quotes: an opening quote. -/
theorem shellTok_outside_quote (cs : List Char) :
    shellTok ParseState.outside ('\'' :: cs) = shellTok ParseState.inside cs := rfl

/-- Single step of the word parser inside quotes: the closing quote. -/
theorem shellTok_inside_quote (cs : List Char) :
    shellTok ParseState.inside ('\'' :: cs) = shellTok ParseState.outside cs := rfl

/-- Single step of the word parser outside quotes: a backslash escape makes
the next character literal. -/
theorem shellTok_outside_bs (d : Char) (ds : List Char) :
    shellTok ParseState.outside ('\\' :: d :: ds)
      = (shellTok ParseState.outside ds).map (fun r => d :: r) := rfl

/-- Single step of the word parser inside quotes: any non-quote character is
literal. -/
theorem shellTok_inside_other (c : Char) (cs : List Char) (h : c ≠ '\'') :
    shellTok ParseState.inside (c :: cs)
      = (shellTok ParseState.inside cs).map (fun r => c :: r) := by
  simp [shellTok, h]

/-- Parsing the escaped core followed by a closing quote: the quoted section
yields the original characters and parsing continues (outside quotes) on the
rest. -/
theorem shellTok_escCore (s rest : List Char) :
    shellTok ParseState.inside (escCore s ++ '\'' :: rest)
      = (shellTok ParseState.outside rest).map (fun r => s ++ r) := by
  induction s with
  | nil =>
    rw [escCore, List.nil_append, shellTok_inside_quote]
    cases shellTok ParseState.outside rest <;> simp
  | cons c cs ih =>
    by_cases hc : c = '\''
    · subst hc
      show shellTok ParseState.inside
        (('\'' :: '\\' :: '\'' :: '\'' :: escCore cs) ++ '\'' :: rest) = _
      rw [List.cons_append, List.cons_append, List.cons_append, List.cons_append,
        shellTok_inside_quote, shellTok_outside_bs, shellTok_outside_quote, ih]
      cases shellTok ParseState.outside rest <;> simp
    · have he : escCore (c :: cs) = c :: escCore cs := by
        simp [escCore, hc]
      rw [he, List.cons_append, shellTok_inside_other c _ hc, ih]
      cases shellTok ParseState.outside rest <;> simp

/-- Claim C8: `escapeArg` wraps its argument in single quotes and replaces
every embedded single quote by the quote-backslash-quote-quote sequence,
and a POSIX shell reading the escaped result gets back exactly the original
value as one literal token, whatever whitespace or quote characters the
value contains; in particular the name O-quote-Brien round-trips. -/
theorem escape_roundtrip :
    (∀ v : String, shellTok ParseState.outside (escapeArg v).data = some v.data) ∧
    shellTok ParseState.outside
        (escapeArg (String.mk ['O', '\'', 'B', 'r', 'i', 'e', 'n'])).data
      = some ['O', '\'', 'B', 'r', 'i', 'e', 'n'] := by
  have main : ∀ v : String,
      shellTok ParseState.outside (escapeArg v).data = some v.data := by
    intro v
    show shellTok ParseState.outside ('\'' :: (escCore v.data ++ ['\'']))
      = some v.data
    rw [shellTok_outside_quote, shellTok_escCore]
    simp [shellTok]
  exact ⟨main, main (String.mk ['O', '\'', 'B', 'r', 'i', 'e', 'n'])⟩

/-- The backoff waits performed by the retry loop form the doubling sequence
started at the entry wait: the i-th wait performed is the entry wait times
2 to the i. -/
theorem retryStreamGo_waits (deadline : Nat) :
    ∀ (atts : List Attempt) (w el : Nat) (r : Option String) (n : Nat) (ws : List Nat),
      retryStreamGo deadline atts w el = some (r, n, ws) →
      ws = (List.range ws.length).map (fun i => w * 2 ^ i) := by
  intro atts
  induction atts with
  | nil => intro w el r n ws h; exact absurd h (by simp [retryStreamGo])
  | cons a rest ih =>
    intro w el r n ws h
    cases a with
    | ok =>
      simp only [retryStreamGo, Option.some.injEq, Prod.mk.injEq] at h
      obtain ⟨-, -, hws⟩ := h
      subst hws
      simp
    | fatal e =>
      simp only [retryStreamGo, Option.some.injEq, Prod.mk.injEq] at h
      obtain ⟨-, -, hws⟩ := h
      subst hws
      simp
    | transient e =>
      simp only [retryStreamGo] at h
      by_cases hd : deadline ≤ el + w
      · rw [if_pos hd] at h
        simp only [Option.some.injEq, Prod.mk.injEq] at h
        obtain ⟨-, -, hws⟩ := h
        subst hws
        simp
      · rw [if_neg hd] at h
        cases hrec : retryStreamGo deadline rest (w * 2) (el + w) with
        | none => rw [hrec] at h; exact absurd h (by simp)
        | some x =>
          obtain ⟨r2, n2, ws2⟩ := x
          rw [hrec] at h
          simp only [Option.some.injEq, Prod.mk.injEq] at h
          obtain ⟨hr, hn, hws⟩ := h
          have hrec2 := ih (w * 2) (el + w) r2 n2 ws2 hrec
          subst hws
          rw [List.length_cons, List.range_succ_eq_map, List.map_cons, List.map_map]
          have hfun : ((fun i => w * 2 ^ i) ∘ Nat.succ) = (fun i => (w * 2) * 2 ^ i) := by
            funext i
            simp only [Function.comp, pow_succ]
            ring
          rw [hfun, ← hrec2]
          simp

/-- The sum of the first N powers of two is 2 to the N minus one. -/
theorem sum_range_two_pow (N : Nat) :
    ((List.range N).map (fun i => 2 ^ i)).sum = 2 ^ N - 1 := by
  induction N with
  | zero => rfl
  | succ k ih =>
    rw [List.range_succ, List.map_append, List.sum_append, ih]
    have h1 : 1 ≤ 2 ^ k := Nat.one_le_two_pow
    have h2 : (2 : Nat) ^ (k + 1) = 2 ^ k * 2 := pow_succ 2 k
    simp only [List.map_cons, List.map_nil, List.sum_cons, List.sum_nil]
    omega

/-- The doubling sequence of waits is monotonically non-decreasing. -/
theorem chain_le_range_two_pow (k : Nat) :
    List.Chain' (fun a b => a ≤ b) ((List.range k).map (fun i => 2 ^ i)) := by
  apply List.Pairwise.chain'
  rw [List.pairwise_map]
  exact (List.pairwise_lt_range k).imp
    (fun hab => Nat.pow_le_pow_right (by omega) (Nat.le_of_lt hab))

/-- Claim C4: the backoff wait starts at one second and doubles after every
transient failure (the i-th performed wait is 2 to the i seconds), so every
run whose loop performed at least N backoff waits — that is, completed N
consecutive transient failures before the retry deadline — waited at least
1 + 2 + ... + 2 to the (N-1), i.e. 2 to the N minus 1, seconds in total,
with the per-retry wait monotonically non-decreasing. -/
theorem backoff_doubling (deadline N : Nat) (atts : List Attempt)
    (r : Option String) (n : Nat) (ws : List Nat)
    (h : retryStream deadline atts = some (r, n, ws)) (hN : N ≤ ws.length) :
    ws = (List.range ws.length).map (fun i => 2 ^ i) ∧
    2 ^ N - 1 ≤ ws.sum ∧ List.Chain' (fun a b => a ≤ b) ws := by
  have hw := retryStreamGo_waits deadline atts 1 0 r n ws h
  have hw2 : ws = (List.range ws.length).map (fun i => 2 ^ i) := by
    simpa using hw
  refine ⟨hw2, ?_, ?_⟩
  · rw [hw2, sum_range_two_pow]
    exact Nat.sub_le_sub_right (Nat.pow_le_pow_right (by omega) hN) 1
  · rw [hw2]
    exact chain_le_range_two_pow ws.length

/-- Witness for `backoff_doubling`: two transient failures then success,
within a deadline of 100 seconds; the performed waits are one second then
two seconds. -/
theorem backoff_doubling_witness :
    ([1, 2] : List Nat) = (List.range 2).map (fun i => 2 ^ i) ∧
    2 ^ 2 - 1 ≤ ([1, 2] : List Nat).sum ∧
    List.Chain' (fun a b => a ≤ b) ([1, 2] : List Nat) := by
  have h := backoff_doubling 100 2
    [Attempt.transient "refused", Attempt.transient "refused", Attempt.ok]
    none 3 [1, 2] (by decide) (by decide)
  simpa using h
